import Mathlib

/-!
Shallow embedding of the HabitVault backend core
(src/backend/app.py and src/backend/models.py).

Calendar dates are modelled as integers counting days, with day 0 a
Monday (Python date.weekday gives 0 for Monday; a model date d stands
for the proleptic Gregorian ordinal d + 1, so the weekday of d is
d % 7 and date comparison, day arithmetic and weekday all coincide
with the Python ones).  Python str.lower, str.strip and str.split
on a comma are embedded as structurally recursive functions over the
character list of the string.  Database rows become Lean structures;
SQLAlchemy completion queries become a Boolean completion predicate.
-/

namespace HabitVault

/-- Python str.lower over the characters of the string. -/
def pyLower (s : String) : String := String.mk (s.data.map Char.toLower)

/-- Python whitespace test used by str.strip (the characters that occur
in schedule strings). -/
def pyIsSpace (c : Char) : Bool := c = ' ' || c = '\t' || c = '\n' || c = '\r'

/-- Python str.strip: drop whitespace from both ends. -/
def pyStrip (s : String) : String :=
  String.mk (((s.data.dropWhile pyIsSpace).reverse.dropWhile pyIsSpace).reverse)

/-- Helper for splitComma: accumulate the current field (reversed). -/
def splitCommaAux : List Char → List Char → List String
  | [], acc => [String.mk acc.reverse]
  | c :: cs, acc =>
    if c = ',' then String.mk acc.reverse :: splitCommaAux cs []
    else splitCommaAux cs (c :: acc)

/-- Python s.split on a comma separator (keeps empty fields). -/
def splitComma (s : String) : List String := splitCommaAux s.data []

/-- Python test whether a comma occurs in the string. -/
def containsComma (s : String) : Bool := s.data.contains ','

/-- The weekday_names list of app.py line 139 / models.py line 178. -/
def weekday_names : List String :=
  ["monday", "tuesday", "wednesday", "thursday", "friday", "saturday", "sunday"]

/-- Python date.weekday of a model date: 0 = Monday .. 6 = Sunday. -/
def dayOfWeek (d : Int) : Nat := (d % 7).toNat

/-- The weekday name of a date, as looked up in weekday_names. -/
def weekdayName (d : Int) : String := weekday_names.getD (dayOfWeek d) ""

/-- Embedding of is_habit_due_on_date (app.py lines 114-146), with the
habit passed as its target_days string and start_date.  The defensive
string-typed start_date branch of lines 119-124 is dropped because the
model types start_date as a Date, as the Habit column does. -/
def is_habit_due_on_date (target_days : String) (start_date : Int) (check_date : Int) : Bool :=
  if check_date < start_date then false
  else if target_days = "every_day" then true
  else if target_days = "weekdays" then decide (dayOfWeek check_date < 5)
  else if containsComma target_days then
    ((splitComma target_days).map (fun day => pyLower (pyStrip day))).contains (weekdayName check_date)
  else pyLower target_days == weekdayName check_date

/-- A row of the habits table (models.py lines 120-159); the columns the
core logic reads. -/
structure Habit where
  id : Nat
  target_days : String
  start_date : Int
  current_streak : Int
  longest_streak : Int
deriving Repr

/-- Embedding of Habit.is_due_today (models.py lines 161-186).  The
model always passes the date explicitly; a call with no argument in the
source passes the server date date.today(). -/
def Habit.is_due_today (h : Habit) (today : Int) : Bool :=
  if today < h.start_date then false
  else if h.target_days = "every_day" then true
  else if h.target_days = "weekdays" then decide (dayOfWeek today < 5)
  else if containsComma h.target_days then
    ((splitComma h.target_days).map (fun day => pyLower (pyStrip day))).contains (weekdayName today)
  else pyLower h.target_days == weekdayName today

/-- The backward scan of calculate_current_streak (app.py lines 76-96):
the while loop that walks previous_date down from today - 1 toward the
habit start date and stops at the first date on which the habit is due.
find_prev_due_from checks the dates start + k, start + k - 1, ..., start
in that order and returns the first due one, mirroring the loop body. -/
def find_prev_due_from (target_days : String) (start : Int) : Nat → Option Int
  | 0 => if is_habit_due_on_date target_days start start then some start else none
  | k + 1 =>
    if is_habit_due_on_date target_days start (start + ((k : Int) + 1)) then
      some (start + ((k : Int) + 1))
    else find_prev_due_from target_days start k

/-- The full loop of app.py lines 77-96: scan from today - 1 down to the
start date; none when the loop body never runs or no due date is found. -/
def find_prev_due (target_days : String) (start today : Int) : Option Int :=
  if today - 1 < start then none
  else find_prev_due_from target_days start (today - 1 - start).toNat

/-- Embedding of calculate_current_streak (app.py lines 61-112).
completed is the completion-existence query of the ledger restricted to
this habit (HabitCompletion.query.filter_by habit_id); today stands for
date.today(), which the source reads from the system clock. -/
def calculate_current_streak (h : Habit) (completed : Int → Bool) (today : Int) : Int :=
  let base : Int :=
    match find_prev_due h.target_days h.start_date today with
    | some p => if completed p then h.current_streak else 0
    | none => 0
  if is_habit_due_on_date h.target_days h.start_date today then
    if completed today then base + 1 else 0
  else base

/-- The day-name set a custom schedule string denotes: the expression the
custom branches of app.py lines 142-146 test membership in (split on
commas, each token stripped and lowercased; without a comma, the single
lowercased token). -/
def customDays (target_days : String) : List String :=
  if containsComma target_days then
    (splitComma target_days).map (fun day => pyLower (pyStrip day))
  else [pyLower target_days]

/-- The streak-field update of complete_habit (app.py lines 607-610):
current_streak is recomputed (with the completion just added visible in
completed), and longest_streak is raised when the new current exceeds
it. -/
def complete_streak_update (h : Habit) (completed : Int → Bool) (serverToday : Int) : Habit :=
  let current := calculate_current_streak h completed serverToday
  let longest := if current > h.longest_streak then current else h.longest_streak
  { h with current_streak := current, longest_streak := longest }

/-- The streak-field update of uncomplete_habit (app.py line 681):
current_streak is recomputed (with the completion removed), and
longest_streak is not touched. -/
def uncomplete_streak_update (h : Habit) (completed : Int → Bool) (serverToday : Int) : Habit :=
  { h with current_streak := calculate_current_streak h completed serverToday }

/-- Embedding of recalculate_all_streaks (app.py lines 148-162), the
application-start sweep: every habit gets its current_streak recomputed;
the source skips the write when the value is unchanged, which produces
the same row, so the model always writes.  longest_streak is not
touched.  completed maps a habit id to its completion predicate. -/
def recalculate_all_streaks (habits : List Habit) (completed : Nat → Int → Bool)
    (serverToday : Int) : List Habit :=
  habits.map (fun h => { h with current_streak := calculate_current_streak h (completed h.id) serverToday })

/-- Embedding of update_perfect_day_status (app.py lines 185-215).
habits are the rows of the user; completed is the ledger query keyed by
habit id and date; today is the date parameter of the function, and
serverToday is date.today(), which line 193 reads through the
zero-argument call h.is_due_today().  The stored perfect-day set (a JSON
list of ISO date strings, one per date, isoformat being injective) is
modelled as a Finset of dates; the membership guards of lines 210-215
around add and remove coincide with Finset.insert and Finset.erase. -/
def update_perfect_day_status (habits : List Habit) (completed : Nat → Int → Bool)
    (serverToday today : Int) (perfectDays : Finset Int) : Finset Int :=
  let habits_due_today := habits.filter (fun h => h.is_due_today serverToday)
  let all_completed := habits_due_today.all (fun h => completed h.id today)
  if all_completed = true ∧ 0 < habits_due_today.length then insert today perfectDays
  else perfectDays.erase today

/-- The per-date status of get_habit_history (app.py lines 744-753):
completed when the ledger has a completion, else missed for a date
strictly before the server date (with the is_due flag of line 750
hard-coded to True in the source), else not_logged. -/
def history_status (completed_dates : Int → Bool) (serverToday d : Int) : String :=
  if completed_dates d then "completed"
  else if d < serverToday then
    let is_due := true
    if is_due then "missed" else "not_logged"
  else "not_logged"

/-- The history list of get_habit_history (app.py lines 741-760): one
(date, status) entry per date of the inclusive range. -/
def get_habit_history (completed_dates : Int → Bool) (serverToday start_date end_date : Int) :
    List (Int × String) :=
  (List.range (end_date + 1 - start_date).toNat).map
    (fun k => (start_date + (k : Int), history_status completed_dates serverToday (start_date + (k : Int))))

/-- The three shapes a local_date request field can take at the request
boundary: missing, present but rejected by
datetime.strptime(s, the ISO day format), or present and parsed to a
date. -/
inductive LocalDateParam where
  | absent
  | malformed
  | valid (d : Int)
deriving Repr

/-- The date-resolution prologue shared by complete_habit (app.py lines
563-572), uncomplete_habit (lines 651-660) and get_habits (lines
447-454): a parsed local_date is used, and both a missing and a
malformed local_date fall back to the server date date.today(). -/
def resolve_local_date (p : LocalDateParam) (serverToday : Int) : Int :=
  match p with
  | .absent => serverToday
  | .malformed => serverToday
  | .valid d => d

/-- The error outcomes of the completion endpoints: HTTP 404 and 409. -/
inductive HErr where
  | notFound
  | conflict
deriving Repr, DecidableEq

/-- The persistent state a completion request touches: the habit rows of
the user, the completion ledger (keyed by habit id and date), and the
perfect-day set of the user. -/
structure St where
  habits : List Habit
  completed : Nat → Int → Bool
  perfectDays : Finset Int

/-- Embedding of the complete_habit endpoint body (app.py lines 555-641)
for an authenticated user: resolve the date, look the habit up, reject
with 409 when a completion for (habit, date) already exists, otherwise
insert the completion, recompute the streak fields (the calculation
runs at the server date; the fresh completion is visible to it), and
update the perfect-day set.  An error return carries out no state
change, as the code returns before mutating (and rolls back on
failure). -/
def complete_habit (st : St) (habit_id : Nat) (p : LocalDateParam) (serverToday : Int) :
    Except HErr St :=
  let today := resolve_local_date p serverToday
  match st.habits.find? (fun x => x.id == habit_id) with
  | none => .error .notFound
  | some habit =>
    if st.completed habit_id today then .error .conflict
    else
      let completed := fun i d => if i = habit_id ∧ d = today then true else st.completed i d
      let habit := complete_streak_update habit (completed habit_id) serverToday
      let habits := st.habits.map (fun x => if x.id == habit_id then habit else x)
      let perfectDays := update_perfect_day_status habits completed serverToday today st.perfectDays
      .ok { habits := habits, completed := completed, perfectDays := perfectDays }

/-- Embedding of the uncomplete_habit endpoint body (app.py lines
643-701): resolve the date, look the habit up, reject with 404 when no
completion exists for (habit, date), otherwise delete the completion,
recompute current_streak (longest_streak untouched), and update the
perfect-day set. -/
def uncomplete_habit (st : St) (habit_id : Nat) (p : LocalDateParam) (serverToday : Int) :
    Except HErr St :=
  let today := resolve_local_date p serverToday
  match st.habits.find? (fun x => x.id == habit_id) with
  | none => .error .notFound
  | some habit =>
    if st.completed habit_id today then
      let completed := fun i d => if i = habit_id ∧ d = today then false else st.completed i d
      let habit := uncomplete_streak_update habit (completed habit_id) serverToday
      let habits := st.habits.map (fun x => if x.id == habit_id then habit else x)
      let perfectDays := update_perfect_day_status habits completed serverToday today st.perfectDays
      .ok { habits := habits, completed := completed, perfectDays := perfectDays }
    else .error .notFound

/-- The record get_next_milestone returns (models.py lines 82-106).
Python computes progress_percentage with true division on ints; the
model uses exact rational arithmetic for it. -/
structure Milestone where
  next_milestone : Nat
  current_count : Nat
  progress_percentage : Rat
  days_remaining : Int
deriving Repr

/-- Embedding of User.get_next_milestone (models.py lines 82-106) on the
stored perfect_days_count. -/
def get_next_milestone (current_count : Nat) : Milestone :=
  let next_milestone : Nat :=
    if current_count < 50 then 50
    else if current_count < 100 then 100
    else if current_count < 150 then 150
    else ((current_count / 50) + 1) * 50
  { next_milestone := next_milestone
    current_count := current_count
    progress_percentage := ((current_count : Rat) / (next_milestone : Rat)) * 100
    days_remaining := (next_milestone : Int) - (current_count : Int) }

/-- The three shapes the perfect_days_dates text column can take, as the
body of User.get_perfect_days_set (models.py lines 55-62) distinguishes
them: falsy (empty) text, text json.loads turns into a list of strings,
and text on which json.loads (or the set constructor) raises, caught by
the bare except.  The JSON parse itself is external fallible code and is
abstracted into this case split. -/
inductive StoredPerfectDays where
  | emptyText
  | jsonList (dates : List String)
  | unparseable
deriving Repr

/-- Embedding of User.get_perfect_days_set (models.py lines 55-62). -/
def get_perfect_days_set (stored : StoredPerfectDays) : Finset String :=
  match stored with
  | .emptyText => ∅
  | .jsonList dates => dates.toFinset
  | .unparseable => ∅

/-- Embedding of User.has_perfect_day (models.py lines 78-80). -/
def has_perfect_day (stored : StoredPerfectDays) (date_str : String) : Bool :=
  date_str ∈ get_perfect_days_set stored

theorem is_due_today_eq (h : Habit) (d : Int) :
    h.is_due_today d = is_habit_due_on_date h.target_days h.start_date d := rfl

theorem find_prev_due_from_some (target_days : String) (start : Int) :
    ∀ k p, find_prev_due_from target_days start k = some p →
      start ≤ p ∧ p ≤ start + (k : Int) ∧
      is_habit_due_on_date target_days start p = true ∧
      ∀ q, p < q → q ≤ start + (k : Int) →
        is_habit_due_on_date target_days start q = false := by
  intro k
  induction k with
  | zero =>
    intro p hp
    unfold find_prev_due_from at hp
    split at hp
    case isTrue hdue =>
      cases hp
      exact ⟨le_refl _, by omega, hdue, fun q h1 h2 => absurd h2 (by omega)⟩
    case isFalse => cases hp
  | succ k ih =>
    intro p hp
    unfold find_prev_due_from at hp
    split at hp
    case isTrue hdue =>
      cases hp
      exact ⟨by omega, by omega, hdue, fun q h1 h2 => absurd h2 (by omega)⟩
    case isFalse hdue =>
      obtain ⟨h1, h2, h3, h4⟩ := ih p hp
      refine ⟨h1, by omega, h3, ?_⟩
      intro q hq1 hq2
      by_cases hq : q ≤ start + (k : Int)
      · exact h4 q hq1 hq
      · have hqe : q = start + ((k : Int) + 1) := by omega
        rw [hqe]
        simpa using hdue

theorem find_prev_due_from_none (target_days : String) (start : Int) :
    ∀ k, find_prev_due_from target_days start k = none →
      ∀ q, start ≤ q → q ≤ start + (k : Int) →
        is_habit_due_on_date target_days start q = false := by
  intro k
  induction k with
  | zero =>
    intro hp q h1 h2
    unfold find_prev_due_from at hp
    split at hp
    case isTrue => cases hp
    case isFalse hdue =>
      have hqe : q = start := by omega
      rw [hqe]
      simpa using hdue
  | succ k ih =>
    intro hp q h1 h2
    unfold find_prev_due_from at hp
    split at hp
    case isTrue => cases hp
    case isFalse hdue =>
      by_cases hq : q ≤ start + (k : Int)
      · exact ih hp q h1 hq
      · have hqe : q = start + ((k : Int) + 1) := by omega
        rw [hqe]
        simpa using hdue

theorem find_prev_due_from_exists (target_days : String) (start : Int) :
    ∀ (k : Nat) (p : Int), start ≤ p → p ≤ start + (k : Int) →
      is_habit_due_on_date target_days start p = true →
      ∃ p', find_prev_due_from target_days start k = some p' ∧ p ≤ p' := by
  intro k
  induction k with
  | zero =>
    intro p h1 h2 hdue
    have hpe : p = start := by omega
    subst hpe
    refine ⟨p, ?_, le_refl _⟩
    unfold find_prev_due_from
    rw [if_pos hdue]
  | succ k ih =>
    intro p h1 h2 hdue
    unfold find_prev_due_from
    by_cases htop : is_habit_due_on_date target_days start (start + ((k : Int) + 1)) = true
    · exact ⟨start + ((k : Int) + 1), by rw [if_pos htop], by omega⟩
    · have hne : p ≠ start + ((k : Int) + 1) := fun h => htop (h ▸ hdue)
      obtain ⟨p', hp', hle⟩ := ih p h1 (by omega) hdue
      exact ⟨p', by rw [if_neg htop]; exact hp', hle⟩

/-- find_prev_due returns a due date that is the most recent one strictly
before today and at or after start. -/
theorem find_prev_due_some (target_days : String) (start today p : Int)
    (hp : find_prev_due target_days start today = some p) :
    start ≤ p ∧ p < today ∧
    is_habit_due_on_date target_days start p = true ∧
    ∀ q, p < q → q < today → is_habit_due_on_date target_days start q = false := by
  unfold find_prev_due at hp
  split at hp
  case isTrue => cases hp
  case isFalse hrange =>
    have hk : start + (((today - 1 - start).toNat : Nat) : Int) = today - 1 := by omega
    obtain ⟨h1, h2, h3, h4⟩ := find_prev_due_from_some target_days start _ p hp
    rw [hk] at h2
    refine ⟨h1, by omega, h3, ?_⟩
    intro q hq1 hq2
    exact h4 q hq1 (by omega)

/-- find_prev_due is none exactly when no date in [start, today) is due. -/
theorem find_prev_due_none (target_days : String) (start today : Int)
    (hp : find_prev_due target_days start today = none) :
    ∀ q, start ≤ q → q < today → is_habit_due_on_date target_days start q = false := by
  unfold find_prev_due at hp
  split at hp
  case isTrue hrange =>
    intro q h1 h2
    exact absurd h1 (by omega)
  case isFalse hrange =>
    intro q h1 h2
    have hk : start + (((today - 1 - start).toNat : Nat) : Int) = today - 1 := by omega
    exact find_prev_due_from_none target_days start _ hp q h1 (by omega)

/-- If some date in [start, today) is due, find_prev_due finds one at
least as recent. -/
theorem find_prev_due_exists (target_days : String) (start today p : Int)
    (h1 : start ≤ p) (h2 : p < today)
    (hdue : is_habit_due_on_date target_days start p = true) :
    ∃ p', find_prev_due target_days start today = some p' ∧ p ≤ p' := by
  unfold find_prev_due
  rw [if_neg (by omega)]
  have hk : start + (((today - 1 - start).toNat : Nat) : Int) = today - 1 := by omega
  exact find_prev_due_from_exists target_days start ((today - 1 - start).toNat) p h1
    (by omega) hdue

/-- Claim C2: calculate_current_streak works in exactly two phases.
Phase 1 scans backward from today - 1 toward start_date for the most
recent due date: when p is that date (due, before today, no later due
date before today), the base streak is the stored current_streak if p
has a completion and 0 if not; when no due date exists in
[start_date, today), the base streak is 0.  Phase 2 then returns
base + 1 when the habit is due today and completed, 0 when due today
and not completed, and the base unchanged when not due today. -/
theorem calculate_current_streak_two_phase (h : Habit) (completed : Int → Bool) (today : Int) :
    (∀ p : Int, h.start_date ≤ p → p < today →
      is_habit_due_on_date h.target_days h.start_date p = true →
      (∀ q : Int, p < q → q < today →
        is_habit_due_on_date h.target_days h.start_date q = false) →
      calculate_current_streak h completed today =
        (if is_habit_due_on_date h.target_days h.start_date today then
          (if completed today then (if completed p then h.current_streak else 0) + 1 else 0)
        else (if completed p then h.current_streak else 0)))
    ∧ ((∀ q : Int, h.start_date ≤ q → q < today →
        is_habit_due_on_date h.target_days h.start_date q = false) →
      calculate_current_streak h completed today =
        (if is_habit_due_on_date h.target_days h.start_date today then
          (if completed today then 0 + 1 else 0)
        else 0)) := by
  constructor
  · intro p hp1 hp2 hpdue hmax
    obtain ⟨p', hfind, hle⟩ :=
      find_prev_due_exists h.target_days h.start_date today p hp1 hp2 hpdue
    obtain ⟨_, hp'2, hp'due, _⟩ := find_prev_due_some h.target_days h.start_date today p' hfind
    have hpe : p' = p := by
      rcases lt_or_eq_of_le hle with hlt | he
      · rw [hmax p' hlt hp'2] at hp'due
        cases hp'due
      · omega
    rw [hpe] at hfind
    simp only [calculate_current_streak, hfind]
  · intro hnone
    cases hfind : find_prev_due h.target_days h.start_date today with
    | some p' =>
      obtain ⟨h1, h2, h3, _⟩ := find_prev_due_some h.target_days h.start_date today p' hfind
      rw [hnone p' h1 h2] at h3
      cases h3
    | none => simp only [calculate_current_streak, hfind]

/-- Witness for C2: a habit due every day starting at day 0, stored
current_streak 7, completions on days 2 and 3, evaluated on day 3; the
most recent prior due day is 2, it is completed, so the base is the
stored 7, and today being due and completed gives 8. -/
theorem calculate_current_streak_two_phase_witness :
    calculate_current_streak ⟨0, "every_day", 0, 7, 7⟩ (fun d => decide (d = 2 ∨ d = 3)) 3 = 8 := by
  have hth := (calculate_current_streak_two_phase ⟨0, "every_day", 0, 7, 7⟩
    (fun d => decide (d = 2 ∨ d = 3)) 3).1 2 (by decide) (by decide) (by decide)
    (fun q hq1 hq2 => absurd hq2 (by omega))
  rw [hth]
  decide

theorem str_beq_comm (a b : String) : (a == b) = (b == a) := by
  cases hab : a == b <;> cases hba : b == a <;> try rfl
  · rw [eq_of_beq hba] at hab
    rw [beq_self_eq_true] at hab
    cases hab
  · rw [eq_of_beq hab] at hba
    rw [beq_self_eq_true] at hba
    cases hba

theorem weekdayName_mem (d : Int) : weekdayName d ∈ weekday_names := by
  have h7 : dayOfWeek d < 7 := by
    unfold dayOfWeek
    omega
  unfold weekdayName
  interval_cases h : dayOfWeek d <;> decide

/-- Claim C6: for every schedule string, so for every schedule kind, and
every start date, a habit is never due on a date strictly before its
start date; this holds for the app.py evaluator and for the models.py
one. -/
theorem is_due_false_before_start (h : Habit) (d : Int) (hd : d < h.start_date) :
    Habit.is_due_today h d = false ∧
    is_habit_due_on_date h.target_days h.start_date d = false := by
  refine ⟨?_, ?_⟩ <;> simp [Habit.is_due_today, is_habit_due_on_date, hd]

/-- Witness for C6: an every-day habit starting on day 5 is not due on
day 3. -/
theorem is_due_false_before_start_witness :
    Habit.is_due_today ⟨0, "every_day", 5, 0, 0⟩ 3 = false ∧
    is_habit_due_on_date "every_day" 5 3 = false :=
  is_due_false_before_start ⟨0, "every_day", 5, 0, 0⟩ 3 (by decide)

/-- Claim C7: for a custom schedule (any target_days other than the two
predefined options) and a date at or after the start date, the habit is
due exactly when the weekday name of the date is a member of the parsed
day-name set customDays, whose tokens are stripped and lowercased, so
the comparison is case-insensitive; two custom schedules whose parsed
sets contain the same weekday names (in particular relistings of the
same names in another order or letter case) are due on the same dates;
and a schedule with no recognized weekday name among its tokens, such as
the literal string custom, is due on no date (and, being a total
function, the evaluator raises no exception). -/
theorem custom_schedule_due (target_days : String) (start d : Int)
    (h1 : target_days ≠ "every_day") (h2 : target_days ≠ "weekdays") (h3 : start ≤ d) :
    (is_habit_due_on_date target_days start d
      = (customDays target_days).contains (weekdayName d))
    ∧ (∀ target_days₂ : String, target_days₂ ≠ "every_day" → target_days₂ ≠ "weekdays" →
        (∀ n ∈ weekday_names,
          (customDays target_days).contains n = (customDays target_days₂).contains n) →
        is_habit_due_on_date target_days start d = is_habit_due_on_date target_days₂ start d)
    ∧ ((∀ n ∈ weekday_names, (customDays target_days).contains n = false) →
        is_habit_due_on_date target_days start d = false) := by
  have hmain : ∀ s : String, s ≠ "every_day" → s ≠ "weekdays" →
      is_habit_due_on_date s start d = (customDays s).contains (weekdayName d) := by
    intro s hs1 hs2
    unfold is_habit_due_on_date customDays
    rw [if_neg (by omega), if_neg hs1, if_neg hs2]
    by_cases hc : containsComma s = true
    · rw [if_pos hc, if_pos hc]
    · rw [if_neg hc, if_neg hc]
      simp only [List.contains, List.elem_cons, List.elem_nil, Bool.or_false]
      rw [str_beq_comm]
      cases weekdayName d == pyLower s <;> rfl
  refine ⟨hmain target_days h1 h2, ?_, ?_⟩
  · intro td₂ h1₂ h2₂ hpt
    rw [hmain target_days h1 h2, hmain td₂ h1₂ h2₂]
    exact hpt (weekdayName d) (weekdayName_mem d)
  · intro hz
    rw [hmain target_days h1 h2]
    exact hz (weekdayName d) (weekdayName_mem d)

/-- Witness for C7: the custom schedule string given as
Monday, WEDNESDAY (mixed case, with a space) is due on day 2, a
Wednesday; it is due on exactly the same dates as the relisting
wednesday,monday; and the literal string custom is never due. -/
theorem custom_schedule_due_witness :
    is_habit_due_on_date "Monday, WEDNESDAY" 0 2
      = (customDays "Monday, WEDNESDAY").contains (weekdayName 2)
    ∧ (customDays "Monday, WEDNESDAY").contains (weekdayName 2) = true
    ∧ is_habit_due_on_date "Monday, WEDNESDAY" 0 2 = is_habit_due_on_date "wednesday,monday" 0 2
    ∧ is_habit_due_on_date "custom" 0 2 = false :=
  ⟨(custom_schedule_due "Monday, WEDNESDAY" 0 2 (by decide) (by decide) (by decide)).1,
   by decide,
   (custom_schedule_due "Monday, WEDNESDAY" 0 2 (by decide) (by decide) (by decide)).2.1
     "wednesday,monday" (by decide) (by decide) (by decide),
   (custom_schedule_due "custom" 0 2 (by decide) (by decide) (by decide)).2.2 (by decide)⟩

/-- Counterexample to claim C3 as stated: the uncompletion-triggered
recompute does not restore longest_streak = max of old longest and new
current.  An every-day habit starting day 0 with stored streaks 4/4 and
ledger completions on days 0, 2 and 3 (the state after completing days
0-3 and then uncompleting day 1, the server date being day 3) recomputes
current_streak to 5 while longest_streak stays 4, so longest ≥ current
fails and longest is not max(4, 5). -/
theorem uncomplete_longest_counterexample :
    (uncomplete_streak_update ⟨0, "every_day", 0, 4, 4⟩
        (fun d => decide (d = 0 ∨ d = 2 ∨ d = 3)) 3).current_streak = 5
    ∧ (uncomplete_streak_update ⟨0, "every_day", 0, 4, 4⟩
        (fun d => decide (d = 0 ∨ d = 2 ∨ d = 3)) 3).longest_streak = 4
    ∧ ¬((uncomplete_streak_update ⟨0, "every_day", 0, 4, 4⟩
          (fun d => decide (d = 0 ∨ d = 2 ∨ d = 3)) 3).longest_streak
        = max (4 : Int) (uncomplete_streak_update ⟨0, "every_day", 0, 4, 4⟩
          (fun d => decide (d = 0 ∨ d = 2 ∨ d = 3)) 3).current_streak) := by
  refine ⟨by decide, by decide, ?_⟩
  intro hmax
  rw [show (uncomplete_streak_update ⟨0, "every_day", 0, 4, 4⟩
      (fun d => decide (d = 0 ∨ d = 2 ∨ d = 3)) 3).current_streak = 5 from by decide,
    show (uncomplete_streak_update ⟨0, "every_day", 0, 4, 4⟩
      (fun d => decide (d = 0 ∨ d = 2 ∨ d = 3)) 3).longest_streak = 4 from by decide] at hmax
  omega

/-- Claim C3 amended: only the completion-triggered recompute updates
longest_streak, setting it to max(old longest, new current), so there
longest ≥ current holds afterwards and longest never decreases; the
uncompletion-triggered recompute and the application-start sweep leave
every longest_streak unchanged (so longest is monotonically
non-decreasing over every sequence of the three operations and is never
reset by an uncompletion), but they do not re-establish
longest ≥ current. -/
theorem longest_streak_updates (h : Habit) (c : Int → Bool) (t : Int)
    (habits : List Habit) (completed : Nat → Int → Bool) :
    ((complete_streak_update h c t).longest_streak
        = max h.longest_streak (complete_streak_update h c t).current_streak)
    ∧ (complete_streak_update h c t).current_streak
        ≤ (complete_streak_update h c t).longest_streak
    ∧ h.longest_streak ≤ (complete_streak_update h c t).longest_streak
    ∧ (uncomplete_streak_update h c t).longest_streak = h.longest_streak
    ∧ (recalculate_all_streaks habits completed t).map (fun x => x.longest_streak)
        = habits.map (fun x => x.longest_streak) := by
  have hmax : (complete_streak_update h c t).longest_streak
      = max h.longest_streak (complete_streak_update h c t).current_streak := by
    simp only [complete_streak_update]
    by_cases hgt : calculate_current_streak h c t > h.longest_streak
    · rw [if_pos hgt, max_eq_right (le_of_lt hgt)]
    · rw [if_neg hgt, max_eq_left (by omega)]
  refine ⟨hmax, ?_, ?_, rfl, ?_⟩
  · rw [hmax]
    exact le_max_right _ _
  · rw [hmax]
    exact le_max_left _ _
  · simp [recalculate_all_streaks, List.map_map, Function.comp]

/-- Claim C1 is violated by the code: update_perfect_day_status computes
the due set with the zero-argument call h.is_due_today(), that is at the
server date, not at its date parameter.  With one weekdays habit
starting on a Monday (day 0), the server date that Monday, and the date
parameter the following Saturday (day 5), no habit is due on day 5, yet
a completion recorded for day 5 makes the function insert day 5 into the
perfect-day set — the claim says a date with zero due habits is never
inserted. -/
theorem update_perfect_day_wrong_date :
    ([(⟨0, "weekdays", 0, 0, 0⟩ : Habit)].filter (fun h => h.is_due_today 5)).length = 0
    ∧ update_perfect_day_status [⟨0, "weekdays", 0, 0, 0⟩]
        (fun i d => decide (i = 0 ∧ d = 5)) 0 5 ∅ = {5} := by
  constructor
  · decide
  · decide

/-- Counterexample to claim C4 as stated: the history view does not
compose the Schedule Evaluator with the Ledger.  Day 5 is a Saturday, a
weekdays habit starting day 0 is not due on it, it is strictly before
the server date 7 and has no completion, yet the code marks it missed,
where the claim requires not_logged for a past uncompleted non-due
date. -/
theorem history_status_counterexample :
    history_status (fun _ => false) 7 5 = "missed"
    ∧ is_habit_due_on_date "weekdays" 0 5 = false
    ∧ ¬(history_status (fun _ => false) 7 5 = "not_logged") := by
  refine ⟨rfl, by decide, by decide⟩

/-- Claim C4 amended: every date of the history gets exactly one of the
three statuses; the status is completed exactly when a completion exists
for the date; a date at or after the server date (today or future) is
never missed; but a past date without a completion is always missed,
whether or not the habit was due on it — the view never consults the
Schedule Evaluator (its is_due flag is hard-coded to True). -/
theorem history_status_cases (completed_dates : Int → Bool) (serverToday d : Int) :
    (history_status completed_dates serverToday d = "completed" ↔ completed_dates d = true)
    ∧ (completed_dates d = false → d < serverToday →
        history_status completed_dates serverToday d = "missed")
    ∧ (completed_dates d = false → serverToday ≤ d →
        history_status completed_dates serverToday d = "not_logged")
    ∧ (history_status completed_dates serverToday d = "completed"
        ∨ history_status completed_dates serverToday d = "missed"
        ∨ history_status completed_dates serverToday d = "not_logged") := by
  by_cases hc : completed_dates d = true
  · have hval : history_status completed_dates serverToday d = "completed" := by
      simp [history_status, hc]
    rw [hval, hc]
    exact ⟨by decide, fun hfalse _ => absurd hfalse (by decide),
      fun hfalse _ => absurd hfalse (by decide), Or.inl rfl⟩
  · have hcf : completed_dates d = false := by
      cases hx : completed_dates d
      · rfl
      · exact absurd hx hc
    by_cases hlt : d < serverToday
    · have hval : history_status completed_dates serverToday d = "missed" := by
        simp [history_status, hcf, hlt]
      rw [hval, hcf]
      exact ⟨by decide, fun _ _ => rfl, fun _ hge => absurd hlt (by omega),
        Or.inr (Or.inl rfl)⟩
    · have hval : history_status completed_dates serverToday d = "not_logged" := by
        simp [history_status, hcf, hlt]
      rw [hval, hcf]
      exact ⟨by decide, fun _ hl => absurd hl hlt, fun _ _ => rfl,
        Or.inr (Or.inr rfl)⟩

/-- Witness for C4 amended: day 3 with no completion and server date 5
is missed; day 5 itself is not_logged. -/
theorem history_status_cases_witness :
    history_status (fun _ => false) 5 3 = "missed"
    ∧ history_status (fun _ => false) 5 5 = "not_logged" :=
  ⟨(history_status_cases (fun _ => false) 5 3).2.1 rfl (by decide),
   (history_status_cases (fun _ => false) 5 5).2.2.1 rfl (by decide)⟩

/-- Counterexample to claim C5 as stated: a complete request carrying a
malformed local_date is not rejected before persistence; with one
every-day habit and an empty ledger it succeeds, and the resulting state
holds a completion recorded on the substituted server date (day 0). -/
theorem malformed_date_counterexample :
    (complete_habit ⟨[⟨0, "every_day", 0, 0, 0⟩], fun _ _ => false, ∅⟩
        0 .malformed 0).isOk = true
    ∧ ((complete_habit ⟨[⟨0, "every_day", 0, 0, 0⟩], fun _ _ => false, ∅⟩
        0 .malformed 0).toOption.map (fun st => st.completed 0 0)).getD false = true := by
  refine ⟨by decide, by decide⟩

/-- Claim C5 amended: a malformed local_date is not rejected with a
validation error; the date-resolution prologue of complete_habit,
uncomplete_habit and get_habits silently substitutes the server date
date.today() for it, and the operation then proceeds exactly as when no
local_date had been supplied. -/
theorem malformed_date_fallback (st : St) (habit_id : Nat) (serverToday : Int) :
    resolve_local_date .malformed serverToday = serverToday
    ∧ complete_habit st habit_id .malformed serverToday
        = complete_habit st habit_id .absent serverToday
    ∧ uncomplete_habit st habit_id .malformed serverToday
        = uncomplete_habit st habit_id .absent serverToday :=
  ⟨rfl, rfl, rfl⟩

/-- Claim C9: when the habit row exists, recording a completion for a
(habit, date) pair that already has one stops with the 409 conflict
error, and removing a completion for a pair that has none stops with the
404 not-found error; in the model an error outcome carries no successor
state, mirroring the code returning before any mutation, so the existing
completion and all other state are left unchanged. -/
theorem completion_error_paths (st : St) (habit_id : Nat) (p : LocalDateParam)
    (serverToday : Int) :
    ((st.habits.find? (fun x => x.id == habit_id)).isSome = true →
      st.completed habit_id (resolve_local_date p serverToday) = true →
      complete_habit st habit_id p serverToday = .error .conflict)
    ∧ ((st.habits.find? (fun x => x.id == habit_id)).isSome = true →
      st.completed habit_id (resolve_local_date p serverToday) = false →
      uncomplete_habit st habit_id p serverToday = .error .notFound) := by
  constructor
  · intro hfind hcomp
    unfold complete_habit
    cases hf : st.habits.find? (fun x => x.id == habit_id) with
    | none => simp [hf] at hfind
    | some habit => simp [hf, hcomp]
  · intro hfind hcomp
    unfold uncomplete_habit
    cases hf : st.habits.find? (fun x => x.id == habit_id) with
    | none => simp [hf] at hfind
    | some habit => simp [hf, hcomp]

/-- Witness for C9: a state with one habit and a completion on day 4;
completing day 4 again conflicts, uncompleting day 5 is not found. -/
theorem completion_error_paths_witness :
    complete_habit ⟨[⟨0, "every_day", 0, 1, 1⟩], fun i d => decide (i = 0 ∧ d = 4), ∅⟩
        0 (.valid 4) 0 = .error .conflict
    ∧ uncomplete_habit ⟨[⟨0, "every_day", 0, 1, 1⟩], fun i d => decide (i = 0 ∧ d = 4), ∅⟩
        0 (.valid 5) 0 = .error .notFound :=
  ⟨(completion_error_paths ⟨[⟨0, "every_day", 0, 1, 1⟩], fun i d => decide (i = 0 ∧ d = 4), ∅⟩
      0 (.valid 4) 0).1 (by decide) (by decide),
   (completion_error_paths ⟨[⟨0, "every_day", 0, 1, 1⟩], fun i d => decide (i = 0 ∧ d = 4), ∅⟩
      0 (.valid 5) 0).2 (by decide) (by decide)⟩

/-- Claim C8: for every count (counts are naturals, so non-negative),
the next milestone is the smallest tier among 50, 100 and 150 strictly
greater than the count when the count is below 150, and
50 * (floor(count / 50) + 1) when the count is at least 150; the record
reports progress_percentage = 100 * count / next_milestone and
days_remaining = next_milestone - count. -/
theorem get_next_milestone_spec (current_count : Nat) :
    (current_count < 150 →
      (get_next_milestone current_count).next_milestone ∈ ({50, 100, 150} : Finset Nat)
      ∧ current_count < (get_next_milestone current_count).next_milestone
      ∧ ∀ t ∈ ({50, 100, 150} : Finset Nat), current_count < t →
          (get_next_milestone current_count).next_milestone ≤ t)
    ∧ (150 ≤ current_count →
      (get_next_milestone current_count).next_milestone = 50 * (current_count / 50 + 1))
    ∧ (get_next_milestone current_count).progress_percentage
        = 100 * (current_count : Rat) / ((get_next_milestone current_count).next_milestone : Rat)
    ∧ (get_next_milestone current_count).days_remaining
        = ((get_next_milestone current_count).next_milestone : Int) - (current_count : Int) := by
  have hprog : ∀ n : Nat, ((current_count : Rat) / (n : Rat)) * 100
      = 100 * (current_count : Rat) / (n : Rat) := by
    intro n
    ring
  simp only [get_next_milestone]
  split_ifs with h50 h100 h150
  · exact ⟨fun _ => ⟨by decide, by omega, fun t ht hlt => by fin_cases ht <;> omega⟩,
      fun h => by omega, hprog 50, trivial⟩
  · exact ⟨fun _ => ⟨by decide, by omega, fun t ht hlt => by fin_cases ht <;> omega⟩,
      fun h => by omega, hprog 100, trivial⟩
  · exact ⟨fun _ => ⟨by decide, by omega, fun t ht hlt => by fin_cases ht <;> omega⟩,
      fun h => by omega, hprog 150, trivial⟩
  · refine ⟨fun h => by omega, fun _ => by ring, hprog _, trivial⟩

/-- Witness for C8 at count 0: the next milestone is 50, above the
count, minimal among the tiers above it, with progress 0 and 50 days
remaining. -/
theorem get_next_milestone_spec_witness :
    (get_next_milestone 0).next_milestone ∈ ({50, 100, 150} : Finset Nat)
    ∧ 0 < (get_next_milestone 0).next_milestone
    ∧ (get_next_milestone 0).progress_percentage
        = 100 * (0 : Rat) / ((get_next_milestone 0).next_milestone : Rat)
    ∧ (get_next_milestone 0).days_remaining
        = ((get_next_milestone 0).next_milestone : Int) - (0 : Int) :=
  ⟨((get_next_milestone_spec 0).1 (by decide)).1,
   ((get_next_milestone_spec 0).1 (by decide)).2.1,
   (get_next_milestone_spec 0).2.2.1,
   (get_next_milestone_spec 0).2.2.2⟩

/-- Claim C10: reading the stored perfect-day text is total over its
three shapes — the Lean embedding is a total function, as the source is
made total by the falsy-text early return and the bare except — with
empty text and unparseable text both yielding the empty set, a parsed
JSON list yielding the set of its members, and membership queries on
unparseable text always answering false. -/
theorem get_perfect_days_total (stored : StoredPerfectDays) (date_str : String) :
    (stored = .emptyText → get_perfect_days_set stored = ∅)
    ∧ (stored = .unparseable → get_perfect_days_set stored = ∅)
    ∧ (∀ dates, stored = .jsonList dates → get_perfect_days_set stored = dates.toFinset)
    ∧ (stored = .unparseable → has_perfect_day stored date_str = false) := by
  refine ⟨?_, ?_, ?_, ?_⟩
  · rintro rfl
    rfl
  · rintro rfl
    rfl
  · rintro dates rfl
    rfl
  · rintro rfl
    simp [has_perfect_day, get_perfect_days_set]

/-- Witness for C10: unparseable stored text yields the empty set and a
negative membership answer for a concrete date string. -/
theorem get_perfect_days_total_witness :
    get_perfect_days_set .unparseable = ∅
    ∧ has_perfect_day .unparseable "2025-05-01" = false :=
  ⟨(get_perfect_days_total .unparseable "2025-05-01").2.1 rfl,
   (get_perfect_days_total .unparseable "2025-05-01").2.2.2 rfl⟩

end HabitVault
